import Mathlib

/-!
Verification of the lightwork HTTP middleware/request-lifecycle core.

The Go source is shallowly embedded: pointer-mutated per-request state
(the `loggingResponseWriter`, the response headers, the log events queued in
the request's logger sink) becomes an explicit `RespState` record threaded
through the operations; a Go `Handler` (`func(c *Context) error`) becomes a
state transformer returning an optional error message; the external
collaborators (the underlying `http.ResponseWriter`, `io.ReadSeeker` streams,
`runtime.Stack`, `fmt.Sprintf`) are abstracted as parameters recording exactly
the observations the code makes of them.  Errors are represented by their
`Error()` text (a `String`), since the code only ever formats them with `%v`,
which renders that text.
-/

namespace Lightwork

/-- One event delivered to the pluggable `RequestLoggerBase` sink: the four
severity levels (`Info`, `Warning`, `Error`, `WTF`) each carrying the message
string handed to the sink, plus the terminal `WriteLogs` flush call. -/
inductive SinkEvent where
  | info (msg : String)
  | warning (msg : String)
  | error (msg : String)
  | wtf (msg : String)
  | writeLogs
deriving DecidableEq, Repr

/-- `http.Header` as used by the code: an association list where `Set`
replaces the values for a key and `Get` returns the first value, `""` when
the key is absent. -/
abbrev Header := List (String × String)

/-- `http.Header.Get`: first value for the key, `""` if unset. -/
def headerGet (h : Header) (key : String) : String :=
  match h.find? (fun p => p.1 = key) with
  | some p => p.2
  | none => ""

/-- `http.Header.Set`: replaces any existing values for the key. -/
def headerSet (h : Header) (key value : String) : Header :=
  h.filter (fun p => p.1 ≠ key) ++ [(key, value)]

/-- The per-request mutable state observed by the embedded operations:
the response headers, the calls forwarded to the underlying raw
`http.ResponseWriter` (`statusWrites`, `bodyChunks`, and whether `io.Copy`
streamed a body into it), the two fields tracked by `loggingResponseWriter`
(`statusCode`, zero-initialised, and `contentLength`), and the log events
delivered so far to the request's `RequestLoggerBase` sink.  Body bytes are
modelled as `Nat`. -/
structure RespState where
  header : Header
  statusWrites : List Int
  bodyChunks : List (List Nat)
  statusCode : Int
  contentLength : Nat
  streamedBody : Bool
  sink : List SinkEvent
deriving DecidableEq, Repr

/-- The zero value `&loggingResponseWriter{rw: rw}` together with a fresh
request: no headers written, tracked status code 0, nothing logged. -/
def initRespState : RespState :=
  { header := [], statusWrites := [], bodyChunks := [], statusCode := 0,
    contentLength := 0, streamedBody := false, sink := [] }

/-- The behaviour of the underlying raw writer's `Write`: for a chunk, the
`(n, err)` it returns.  This is the external transport collaborator. -/
abbrev UnderlyingWrite := List Nat → Nat × Option String

/-- `loggingResponseWriter.Header()`: forwards to the underlying writer's
header map. -/
def lrwHeader (st : RespState) : Header := st.header

/-- `loggingResponseWriter.Write`: forwards the chunk to the underlying
writer, returns its `(n, err)` unchanged, and adds `n` to the tracked
`contentLength`. -/
def lrwWrite (uw : UnderlyingWrite) (st : RespState) (b : List Nat) :
    (Nat × Option String) × RespState :=
  let r := uw b
  (r, { st with bodyChunks := st.bodyChunks ++ [b],
                contentLength := st.contentLength + r.1 })

/-- `loggingResponseWriter.WriteHeader`: records the status code in the
tracked field and forwards the call to the underlying writer. -/
def lrwWriteHeader (st : RespState) (code : Int) : RespState :=
  { st with statusCode := code, statusWrites := st.statusWrites ++ [code] }

/-- `ContextResponse.GetStatusCode`: returns the tracked status code. -/
def GetStatusCode (st : RespState) : Int := st.statusCode

/-- `lightwork.Handler`: `func(c *Context) (err error)`, embedded as a state
transformer returning the final state and the optional error text. -/
abbrev Handler := RespState → RespState × Option String

/-- `lightwork.Middleware`: `func(next Handler) (h Handler)`. -/
abbrev Middleware := Handler → Handler

/-- The loop body of `HandlerGroup.middlewareHandler`: counting `i` down,
`fullHandler = ml[i](fullHandler)`.  `middlewareLoop ml n h` runs the loop
iterations `i = n-1, …, 0` starting from `h`. -/
def middlewareLoop (ml : List Middleware) : Nat → Handler → Handler
  | 0, fullHandler => fullHandler
  | i + 1, fullHandler => middlewareLoop ml i (ml.getD i id fullHandler)

/-- `HandlerGroup.middlewareHandler`: starts from the user handler and
applies `ml[i]` for `i` from `len(ml)-1` down to `0`. -/
def middlewareHandler (ml : List Middleware) (userHandler : Handler) : Handler :=
  middlewareLoop ml ml.length userHandler

theorem middlewareLoop_take (ml : List Middleware) :
    ∀ n : Nat, n ≤ ml.length → ∀ h : Handler,
      middlewareLoop ml n h = (ml.take n).foldr (fun m k => m k) h := by
  intro n
  induction n with
  | zero => intro _ h; rfl
  | succ n ih =>
    intro hle h
    have hlt : n < ml.length := Nat.lt_of_succ_le hle
    have h2 : ml.take (n + 1) = ml.take n ++ [ml.get ⟨n, hlt⟩] := by
      rw [List.take_succ]
      simp [List.getElem?_eq_getElem hlt]
    have h3 : ml.getD n id = ml.get ⟨n, hlt⟩ := by
      simp [List.getD, List.getElem?_eq_getElem hlt]
    show middlewareLoop ml n (ml.getD n id h) = _
    rw [ih (Nat.le_of_lt hlt), h2, List.foldr_append, h3]
    rfl

/-- C1: the effective handler built from middleware list `[m0, …, mk]` over
leaf `L` is the last-to-first fold `m0 (m1 (… (mk L)))`, i.e. the
first-registered middleware is the outermost wrapper; an empty middleware
list yields the leaf handler unchanged. -/
theorem middlewareHandler_foldr (ml : List Middleware) (L : Handler) :
    middlewareHandler ml L = ml.foldr (fun m k => m k) L ∧
    middlewareHandler ([] : List Middleware) L = L ∧
    ∀ m0 m1 m2 : Middleware,
      middlewareHandler [m0, m1, m2] L = m0 (m1 (m2 L)) := by
  refine ⟨?_, rfl, ?_⟩
  · show middlewareLoop ml ml.length L = _
    rw [middlewareLoop_take ml ml.length (Nat.le_refl _) L, List.take_length]
  · intro m0 m1 m2
    show middlewareLoop [m0, m1, m2] 3 L = _
    rw [middlewareLoop_take [m0, m1, m2] 3 (by simp) L]
    rfl

/-! ### RequestLogger (src/unnamed/part_000)

`RequestLogger` holds a `RequestLoggerBase` sink; each method delivers
messages to the sink.  We embed a method as the list of `SinkEvent`s it
delivers, and `runtime.Stack`'s output as a `String` parameter (text bytes
modelled as characters). -/

/-- `string(stBuf[:n])` for `stBuf := make([]byte, 100000)` and
`n := runtime.Stack(stBuf, false)`: the captured trace truncated to the
100000-byte buffer. -/
def stackCapture (stack : String) : String :=
  (stack.toList.take 100000).asString

/-- `RequestLogger.Info`: delegates to the sink's `Info`. -/
def rlInfo (msg : String) : List SinkEvent := [.info msg]

/-- `RequestLogger.Warning`: delegates to the sink's `Warning`. -/
def rlWarning (msg : String) : List SinkEvent := [.warning msg]

/-- `RequestLogger.Error`: delegates to the sink's `Error`. -/
def rlError (msg : String) : List SinkEvent := [.error msg]

/-- `RequestLogger.WTF`: delegates the message to the sink's `WTF`, then
captures the current stack into the 100000-byte buffer and delegates
`"Stack Trace:\n" + trace` as a second `WTF` message. -/
def rlWTF (stack msg : String) : List SinkEvent :=
  [.wtf msg, .wtf ("Stack Trace:\n" ++ stackCapture stack)]

/-- The type of `fmt.Sprintf` restricted to the shapes the code uses, and of
the sink's `FormatLog` capability: a template and values to a string.
Values are represented by their rendered text. -/
abbrev FormatFn := String → List String → String

/-- `RequestLogger.Infof`: `rl.Info(fmt.Sprintf(format, values...))`.  The
Go runtime's `fmt.Sprintf` is the abstract parameter `sprintf`. -/
def rlInfof (sprintf : FormatFn) (format : String) (values : List String) :
    List SinkEvent :=
  rlInfo (sprintf format values)

/-- `RequestLogger.Warningf`: `rl.Warning(fmt.Sprintf(format, values...))`. -/
def rlWarningf (sprintf : FormatFn) (format : String) (values : List String) :
    List SinkEvent :=
  rlWarning (sprintf format values)

/-- `RequestLogger.Errorf`: `rl.Error(fmt.Sprintf(format, values...))`. -/
def rlErrorf (sprintf : FormatFn) (format : String) (values : List String) :
    List SinkEvent :=
  rlError (sprintf format values)

/-- `RequestLogger.WTFf`: `rl.WTF(fmt.Sprintf(format, values...))`. -/
def rlWTFf (stack : String) (sprintf : FormatFn) (format : String)
    (values : List String) : List SinkEvent :=
  rlWTF stack (sprintf format values)

/-- Appends freshly delivered sink events to the request state. -/
def logEvents (st : RespState) (es : List SinkEvent) : RespState :=
  { st with sink := st.sink ++ es }

/-- `fmt.Sprintf` evaluated on a format string containing no `%` verbs and
no values: the Go formatter returns such a format string unchanged,
independently of anything the sink provides. -/
def sprintfNoVerbs : FormatFn := fun format _ => format

/-- A well-formed sink `FormatLog` implementation, used to exhibit that the
`*f` methods never consult it. -/
def exampleFormatLog : FormatFn := fun format _ => "formatted:" ++ format

/-- C5: what the code actually does — every formatted variant renders the
template with `fmt.Sprintf` and delegates to the unformatted level; the
sink's `FormatLog` is never consulted, so for a sink whose `FormatLog`
differs from `fmt.Sprintf` (here on the verb-free template `"hello"`) the
delivered message is not the sink-formatted one the documentation
promises. -/
theorem formatted_variants_bypass_FormatLog :
    (∀ (sprintf : FormatFn) (format : String) (values : List String),
      rlInfof sprintf format values = [SinkEvent.info (sprintf format values)] ∧
      rlWarningf sprintf format values = [SinkEvent.warning (sprintf format values)] ∧
      rlErrorf sprintf format values = [SinkEvent.error (sprintf format values)] ∧
      ∀ stack : String,
        rlWTFf stack sprintf format values = rlWTF stack (sprintf format values)) ∧
    rlInfof sprintfNoVerbs "hello" [] = [SinkEvent.info "hello"] ∧
    [SinkEvent.info (exampleFormatLog "hello" [])] =
      [SinkEvent.info "formatted:hello"] ∧
    rlInfof sprintfNoVerbs "hello" [] ≠
      [SinkEvent.info (exampleFormatLog "hello" [])] := by
  refine ⟨fun sprintf format values => ⟨rfl, rfl, rfl, fun stack => rfl⟩, rfl, rfl, ?_⟩
  decide

/-- C9: each `WTF` call delivers exactly two fatal-bug events to the sink,
in order: the message itself, then the captured stack snapshot (bounded by
the 100000-byte buffer) prefixed with `"Stack Trace:\n"`. -/
theorem rlWTF_two_sink_events (stack msg : String) :
    rlWTF stack msg =
      [SinkEvent.wtf msg,
       SinkEvent.wtf ("Stack Trace:\n" ++ stackCapture stack)] ∧
    (rlWTF stack msg).length = 2 ∧
    (stackCapture stack).length ≤ 100000 := by
  refine ⟨rfl, rfl, ?_⟩
  show (List.asString _).length ≤ _
  rw [String.length]
  simp [List.asString]

/-! ### The request lifecycle shim (src/handlerGroup.go, handlerShim) -/

/-- The post-conditions `handlerShim` evaluates after the composed handler
returns with final state `st` and error `err`: log the error at Error level
if non-nil (`Errorf` on the `%v`-rendered error), log a `WTF` if the tracked
status code is still 0, then call the sink's `WriteLogs` — and return
nothing (the shim is an `httprouter.Handle`; no error escapes it). -/
def handlerShimPost (stack : String) (st : RespState) (err : Option String) :
    RespState :=
  let st1 := match err with
    | some e => logEvents st (rlError ("Error returned from request handler: " ++ e))
    | none => st
  let st2 := if st1.statusCode = 0
    then logEvents st1 (rlWTF stack "Handler didn't write a response")
    else st1
  logEvents st2 [SinkEvent.writeLogs]

/-- `HandlerGroup.handlerShim`: composes the middleware chain over the user
handler at registration time, and at request time runs it on a fresh request
state, then evaluates the lifecycle post-conditions. -/
def handlerShim (stack : String) (ml : List Middleware) (userHandler : Handler)
    (st0 : RespState) : RespState :=
  let r := middlewareHandler ml userHandler st0
  handlerShimPost stack r.1 r.2

/-- C2: the events the lifecycle shim appends after the handler returns are
exactly: one Error-level event rendering the error when it is non-nil, then
the fatal-bug `"Handler didn't write a response"` (with its stack-trace
companion) when the tracked status is still 0, then exactly one `WriteLogs`
flush, unconditionally and last; the tracked status is not altered and the
shim returns no error (its result type carries none). -/
theorem handlerShim_post_conditions (stack : String) (st : RespState)
    (err : Option String) :
    (handlerShimPost stack st err).sink =
      st.sink
        ++ (match err with
            | some e =>
                [SinkEvent.error ("Error returned from request handler: " ++ e)]
            | none => [])
        ++ (if st.statusCode = 0 then
              [SinkEvent.wtf "Handler didn't write a response",
               SinkEvent.wtf ("Stack Trace:\n" ++ stackCapture stack)]
            else [])
        ++ [SinkEvent.writeLogs] ∧
    (handlerShimPost stack st err).sink.count SinkEvent.writeLogs =
      st.sink.count SinkEvent.writeLogs + 1 ∧
    (handlerShimPost stack st err).sink.getLast? = some SinkEvent.writeLogs ∧
    (handlerShimPost stack st err).statusCode = st.statusCode := by
  cases err with
  | none =>
    by_cases h0 : st.statusCode = 0 <;>
      simp [handlerShimPost, logEvents, rlError, rlWTF, h0, List.count_append,
        List.getLast?_append]
  | some e =>
    by_cases h0 : st.statusCode = 0 <;>
      simp [handlerShimPost, logEvents, rlError, rlWTF, h0, List.count_append,
        List.getLast?_append]

/-! ### Classic shims (src/middleware.go) -/

/-- A classic `http.Handler`'s `ServeHTTP`, embedded as a transformer of the
per-request state (Go mutates through the writer/request pointers). -/
abbrev ClassicHandler := RespState → RespState

/-- `ClassicHandlerShim`: runs the classic handler's `ServeHTTP` on the
request's writer and request, and returns `nil`. -/
def ClassicHandlerShim (classicHandler : ClassicHandler) : Handler :=
  fun c => (classicHandler c, none)

/-- `ClassicMiddlewareShim`: wraps the inner handler `n` in an
`http.HandlerFunc` that ignores the writer/request it is handed, calls
`n(c)` on the original context and discards its error; the classic
middleware is applied to that, and the result runs via
`ClassicHandlerShim` (which returns `nil`). -/
def ClassicMiddlewareShim (classicMiddleware : ClassicHandler → ClassicHandler) :
    Middleware :=
  fun n => fun c =>
    let classicHandler := classicMiddleware (fun s => (n s).1)
    ClassicHandlerShim classicHandler c

/-- Does the sink event carry Error severity? -/
def isErrorEvent : SinkEvent → Bool
  | .error _ => true
  | _ => false

/-- C10: a middleware produced by `ClassicMiddlewareShim` hands the classic
middleware the inner handler with its error projected away, always returns
`nil` itself (in particular when the classic middleware is the identity, the
inner handler runs on the original context and its error is discarded), and
a `nil` handler result makes the lifecycle shim append no Error-level
event — downstream errors are silently swallowed. -/
theorem classicMiddlewareShim_swallows_errors
    (cm : ClassicHandler → ClassicHandler) (n : Handler) (c : RespState) :
    ClassicMiddlewareShim cm n c = (cm (fun s => (n s).1) c, none) ∧
    (ClassicMiddlewareShim cm n c).2 = none ∧
    ClassicMiddlewareShim (fun h => h) n c = ((n c).1, none) ∧
    ∀ (stack : String) (st : RespState),
      ((handlerShimPost stack st none).sink.countP (fun ev => isErrorEvent ev)) =
        st.sink.countP (fun ev => isErrorEvent ev) := by
  refine ⟨rfl, rfl, rfl, fun stack st => ?_⟩
  by_cases h0 : st.statusCode = 0 <;>
    simp [handlerShimPost, logEvents, rlWTF, h0, List.countP_append, isErrorEvent]

/-! ### Header lemmas -/

/-- Whether a key is present in the header map at all. -/
def headerHas (h : Header) (key : String) : Bool :=
  h.any (fun p => p.1 = key)

theorem headerGet_headerSet_same (h : Header) (k v : String) :
    headerGet (headerSet h k v) k = v := by
  unfold headerGet headerSet
  rw [List.find?_append]
  have hnone : (h.filter (fun p => decide (p.1 ≠ k))).find?
      (fun p => decide (p.1 = k)) = none := by
    rw [List.find?_eq_none]
    intro a ha
    have := (List.mem_filter.mp ha).2
    simpa using this
  rw [hnone]
  simp

theorem find?_pred_congr {α : Type} {l : List α} {p q : α → Bool}
    (hpq : ∀ a, p a = q a) : l.find? p = l.find? q := by
  induction l with
  | nil => rfl
  | cons a t ih => rw [List.find?_cons, List.find?_cons, hpq a, ih]

theorem headerGet_headerSet_ne (h : Header) (key k v : String) (hne : key ≠ k) :
    headerGet (headerSet h k v) key = headerGet h key := by
  have hfind : (headerSet h k v).find? (fun p => decide (p.1 = key)) =
      h.find? (fun p => decide (p.1 = key)) := by
    unfold headerSet
    rw [List.find?_append, List.find?_filter]
    have h2 : List.find? (fun p => decide (p.1 = key)) [(k, v)] = none := by
      simp [Ne.symm hne]
    rw [h2, Option.or_none]
    refine find?_pred_congr (fun a => ?_)
    by_cases hax : a.1 = key
    · have hak : a.1 ≠ k := by rw [hax]; exact hne
      simp [hax, hak, hne]
    · simp [hax]
  unfold headerGet
  rw [hfind]

theorem headerHas_headerSet_same (h : Header) (k v : String) :
    headerHas (headerSet h k v) k = true := by
  simp [headerHas, headerSet]

/-! ### Response facade: Bytes and String (src/context.go) -/

/-- `ContextResponse.setHeaderIfNotAlreadySet`: sets `key` to `value` only
when `Get(key)` returns the empty string. -/
def setHeaderIfNotAlreadySet (st : RespState) (key value : String) : RespState :=
  if headerGet st.header key ≠ "" then st
  else { st with header := headerSet st.header key value }

/-- `ContextResponse.Bytes`: default the Content-Type to
`application/octet-stream` when unset, set Content-Length to the body size,
write the status, write the body, and wrap a failing write's error. -/
def respBytes (uw : UnderlyingWrite) (st : RespState) (statusCode : Int)
    (body : List Nat) : RespState × Option String :=
  let st1 := setHeaderIfNotAlreadySet st "Content-Type" "application/octet-stream"
  let st2 := { st1 with
    header := headerSet st1.header "Content-Length" (toString body.length) }
  let st3 := lrwWriteHeader st2 statusCode
  let r := lrwWrite uw st3 body
  match r.1.2 with
  | some e => (r.2, some ("failed to write body: " ++ e))
  | none => (r.2, none)

/-- `[]byte(body)`: the UTF-8 bytes of a Go string. -/
def strBytes (s : String) : List Nat :=
  s.toUTF8.toList.map (fun b => b.toNat)

/-- `ContextResponse.String`: default the Content-Type to `text/plain` when
unset, then delegate to `Bytes` on the body's UTF-8 bytes. -/
def respString (uw : UnderlyingWrite) (st : RespState) (statusCode : Int)
    (body : String) : RespState × Option String :=
  respBytes uw (setHeaderIfNotAlreadySet st "Content-Type" "text/plain")
    statusCode (strBytes body)

/-- C7: `Bytes` keeps a Content-Type the handler already set and defaults it
to `application/octet-stream` only when absent (`String`: `text/plain`);
Content-Length is set to the body's byte length; the status and then the
full body are written to the underlying writer; a write failure surfaces as
the wrapped error `failed to write body: …`, and otherwise no error. -/
theorem respBytes_contract (uw : UnderlyingWrite) (st : RespState)
    (statusCode : Int) (body : List Nat) (sbody : String) :
    (headerGet st.header "Content-Type" ≠ "" →
      headerGet (respBytes uw st statusCode body).1.header "Content-Type" =
        headerGet st.header "Content-Type") ∧
    (headerGet st.header "Content-Type" = "" →
      headerGet (respBytes uw st statusCode body).1.header "Content-Type" =
        "application/octet-stream") ∧
    (headerGet st.header "Content-Type" = "" →
      headerGet (respString uw st statusCode sbody).1.header "Content-Type" =
        "text/plain") ∧
    (headerGet st.header "Content-Type" ≠ "" →
      headerGet (respString uw st statusCode sbody).1.header "Content-Type" =
        headerGet st.header "Content-Type") ∧
    headerGet (respBytes uw st statusCode body).1.header "Content-Length" =
      toString body.length ∧
    headerGet (respString uw st statusCode sbody).1.header "Content-Length" =
      toString (strBytes sbody).length ∧
    (respBytes uw st statusCode body).1.statusWrites =
      st.statusWrites ++ [statusCode] ∧
    (respBytes uw st statusCode body).1.statusCode = statusCode ∧
    (respBytes uw st statusCode body).1.bodyChunks = st.bodyChunks ++ [body] ∧
    (respBytes uw st statusCode body).2 =
      (uw body).2.map (fun e => "failed to write body: " ++ e) := by
  have hctcl : ("Content-Type" : String) ≠ "Content-Length" := by decide
  have hclct : ("Content-Length" : String) ≠ "Content-Type" := by decide
  refine ⟨?_, ?_, ?_, ?_, ?_, ?_, ?_, ?_, ?_, ?_⟩
  · intro hset
    cases huw : (uw body).2 <;>
      simp [respBytes, setHeaderIfNotAlreadySet, lrwWriteHeader, lrwWrite, hset,
        huw, headerGet_headerSet_ne _ _ _ _ hctcl]
  · intro hunset
    cases huw : (uw body).2 <;>
      simp [respBytes, setHeaderIfNotAlreadySet, lrwWriteHeader, lrwWrite, hunset,
        huw, headerGet_headerSet_ne _ _ _ _ hctcl, headerGet_headerSet_same]
  · intro hunset
    have hmid : headerGet (headerSet st.header "Content-Type" "text/plain")
        "Content-Type" = "text/plain" := headerGet_headerSet_same _ _ _
    cases huw : (uw (strBytes sbody)).2 <;>
      simp [respString, respBytes, setHeaderIfNotAlreadySet, lrwWriteHeader,
        lrwWrite, hunset, huw, hmid, headerGet_headerSet_ne _ _ _ _ hctcl,
        headerGet_headerSet_same]
  · intro hset
    cases huw : (uw (strBytes sbody)).2 <;>
      simp [respString, respBytes, setHeaderIfNotAlreadySet, lrwWriteHeader,
        lrwWrite, hset, huw, headerGet_headerSet_ne _ _ _ _ hctcl]
  · cases huw : (uw body).2 <;>
      by_cases hct : headerGet st.header "Content-Type" = "" <;>
        simp [respBytes, setHeaderIfNotAlreadySet, lrwWriteHeader, lrwWrite, hct,
          huw, headerGet_headerSet_same]
  · cases huw : (uw (strBytes sbody)).2 <;>
      by_cases hct : headerGet st.header "Content-Type" = "" <;>
        simp [respString, respBytes, setHeaderIfNotAlreadySet, lrwWriteHeader,
          lrwWrite, hct, huw, headerGet_headerSet_same,
          headerGet_headerSet_ne _ _ _ _ hclct]
  · cases huw : (uw body).2 <;>
      by_cases hct : headerGet st.header "Content-Type" = "" <;>
        simp [respBytes, setHeaderIfNotAlreadySet, lrwWriteHeader, lrwWrite, hct, huw]
  · cases huw : (uw body).2 <;>
      by_cases hct : headerGet st.header "Content-Type" = "" <;>
        simp [respBytes, setHeaderIfNotAlreadySet, lrwWriteHeader, lrwWrite, hct, huw]
  · cases huw : (uw body).2 <;>
      by_cases hct : headerGet st.header "Content-Type" = "" <;>
        simp [respBytes, setHeaderIfNotAlreadySet, lrwWriteHeader, lrwWrite, hct, huw]
  · cases huw : (uw body).2 <;>
      by_cases hct : headerGet st.header "Content-Type" = "" <;>
        simp [respBytes, setHeaderIfNotAlreadySet, lrwWriteHeader, lrwWrite, hct, huw]

/-! ### Stream and StreamReadSeeker (src/context.go) -/

/-- The observations `StreamReadSeeker` makes of its `io.ReadSeeker` and of
the subsequent `io.Copy`: the outcomes of `Seek(0, SeekCurrent)`,
`Seek(0, SeekEnd)` and `Seek(currentPos, SeekStart)` (each a position or an
error text), and the error `io.Copy` ends with when the body is streamed. -/
structure RSeek where
  curSeek : Except String Int
  endSeek : Except String Int
  restoreSeek : Except String Int
  copyErr : Option String

/-- `ContextResponse.Stream`: writes the status code, then `io.Copy`s the
reader into the tracked writer until exhaustion or error.  The copied bytes
are abstracted into the `streamedBody` flag; the copy's outcome is the
returned error. -/
def respStream (st : RespState) (statusCode : Int) (s : RSeek) :
    RespState × Option String :=
  let st1 := lrwWriteHeader st statusCode
  ({ st1 with streamedBody := true }, s.copyErr)

/-- `ContextResponse.StreamReadSeeker`: probes the remaining length via
seek-to-current and seek-to-end; on either failure logs a Warning (the
`%v`-rendered seek error) and an Info and falls back to `Stream`; if the
restoring seek fails, logs an Error and returns the aborting error; on full
success sets Content-Length to `end - current` and streams. -/
def respStreamReadSeeker (st : RespState) (statusCode : Int) (s : RSeek) :
    RespState × Option String :=
  match s.curSeek with
  | .error e =>
    let st1 := logEvents st
      (rlWarning ("Unable to determine current stream position: " ++ e))
    let st2 := logEvents st1 (rlInfo "Falling back to chunked streaming")
    respStream st2 statusCode s
  | .ok currentPos =>
    match s.endSeek with
    | .error e =>
      let st1 := logEvents st
        (rlWarning ("Unable to determine total stream length: " ++ e))
      let st2 := logEvents st1 (rlInfo "Falling back to chunked streaming")
      respStream st2 statusCode s
    | .ok totalStreamLen =>
      match s.restoreSeek with
      | .error e =>
        let st1 := logEvents st
          (rlError ("Unable to restore stream position after reading length: " ++ e))
        (st1, some "failed to safely determine stream length - aborting")
      | .ok _ =>
        let cl := toString (totalStreamLen - currentPos)
        let st1 := { st with header := headerSet st.header "Content-Length" cl }
        respStream st1 statusCode s

/-- C4: when both probing seeks and the restoring seek succeed,
`StreamReadSeeker` sets Content-Length to exactly `end - current` and then
streams the body; when either probing seek fails it logs a Warning, leaves
the headers (hence Content-Length) untouched, still streams via `Stream` and
returns only the copy's own outcome; when the restoring seek fails it
returns the aborting error without writing a status or streaming; and a
Content-Length appears exactly when all three seeks succeed. -/
theorem respStreamReadSeeker_contract (st : RespState) (statusCode : Int)
    (s : RSeek) (h0 : headerHas st.header "Content-Length" = false) :
    (∀ c en r, s.curSeek = .ok c → s.endSeek = .ok en → s.restoreSeek = .ok r →
      headerGet (respStreamReadSeeker st statusCode s).1.header "Content-Length" =
          toString (en - c) ∧
        (respStreamReadSeeker st statusCode s).1.streamedBody = true ∧
        (respStreamReadSeeker st statusCode s).1.statusWrites =
          st.statusWrites ++ [statusCode] ∧
        (respStreamReadSeeker st statusCode s).2 = s.copyErr) ∧
    (∀ e, s.curSeek = .error e →
      (respStreamReadSeeker st statusCode s).1.header = st.header ∧
        (respStreamReadSeeker st statusCode s).1.sink = st.sink ++
          [SinkEvent.warning ("Unable to determine current stream position: " ++ e),
           SinkEvent.info "Falling back to chunked streaming"] ∧
        (respStreamReadSeeker st statusCode s).1.streamedBody = true ∧
        (respStreamReadSeeker st statusCode s).2 = s.copyErr) ∧
    (∀ c e, s.curSeek = .ok c → s.endSeek = .error e →
      (respStreamReadSeeker st statusCode s).1.header = st.header ∧
        (respStreamReadSeeker st statusCode s).1.sink = st.sink ++
          [SinkEvent.warning ("Unable to determine total stream length: " ++ e),
           SinkEvent.info "Falling back to chunked streaming"] ∧
        (respStreamReadSeeker st statusCode s).1.streamedBody = true ∧
        (respStreamReadSeeker st statusCode s).2 = s.copyErr) ∧
    (∀ c en e, s.curSeek = .ok c → s.endSeek = .ok en → s.restoreSeek = .error e →
      (respStreamReadSeeker st statusCode s).2 =
          some "failed to safely determine stream length - aborting" ∧
        (respStreamReadSeeker st statusCode s).1.streamedBody = st.streamedBody ∧
        (respStreamReadSeeker st statusCode s).1.statusWrites = st.statusWrites ∧
        (respStreamReadSeeker st statusCode s).1.header = st.header ∧
        (respStreamReadSeeker st statusCode s).1.sink = st.sink ++
          [SinkEvent.error
            ("Unable to restore stream position after reading length: " ++ e)]) ∧
    (headerHas (respStreamReadSeeker st statusCode s).1.header "Content-Length" =
      true ↔
        (∃ c, s.curSeek = .ok c) ∧ (∃ en, s.endSeek = .ok en) ∧
          ∃ r, s.restoreSeek = .ok r) := by
  obtain ⟨cur, ed, res, cp⟩ := s
  refine ⟨?_, ?_, ?_, ?_, ?_⟩
  · intro c en r hc he hr
    cases hc; cases he; cases hr
    simp [respStreamReadSeeker, respStream, lrwWriteHeader,
      headerGet_headerSet_same]
  · intro e hc
    cases hc
    simp [respStreamReadSeeker, respStream, lrwWriteHeader, logEvents,
      rlWarning, rlInfo]
  · intro c e hc he
    cases hc; cases he
    simp [respStreamReadSeeker, respStream, lrwWriteHeader, logEvents,
      rlWarning, rlInfo]
  · intro c en e hc he hr
    cases hc; cases he; cases hr
    simp [respStreamReadSeeker, logEvents, rlError]
  · cases cur with
    | error e =>
      simp [respStreamReadSeeker, respStream, lrwWriteHeader, logEvents, h0]
    | ok c =>
      cases ed with
      | error e =>
        simp [respStreamReadSeeker, respStream, lrwWriteHeader, logEvents, h0]
      | ok en =>
        cases res with
        | error e =>
          simp [respStreamReadSeeker, logEvents, h0]
        | ok r =>
          simp [respStreamReadSeeker, respStream, lrwWriteHeader,
            headerHas_headerSet_same]

/-- Closed instance of the C4 contract: an in-memory stream at position 3
with end position 10 and all seeks succeeding gets Content-Length 7 and is
streamed; the same stream with a failing end-seek is streamed without a
Content-Length after a Warning. -/
theorem respStreamReadSeeker_contract_witness :
    headerGet (respStreamReadSeeker initRespState 200
        ⟨Except.ok 3, Except.ok 10, Except.ok 3, none⟩).1.header "Content-Length" =
      "7" ∧
    (respStreamReadSeeker initRespState 200
        ⟨Except.ok 3, Except.error "boom", Except.ok 3, none⟩).1.sink =
      [SinkEvent.warning "Unable to determine total stream length: boom",
       SinkEvent.info "Falling back to chunked streaming"] := by
  constructor
  · exact ((respStreamReadSeeker_contract initRespState 200
      ⟨Except.ok 3, Except.ok 10, Except.ok 3, none⟩ (by decide)).1 3 10 3
      rfl rfl rfl).1
  · exact ((respStreamReadSeeker_contract initRespState 200
      ⟨Except.ok 3, Except.error "boom", Except.ok 3, none⟩ (by decide)).2.2.1 3
      "boom" rfl rfl).2.1

/-! ### The response tracker's operation semantics (src/context.go) -/

/-- A call a handler makes on the tracked writer: a body write or a status
write. -/
inductive RWOp where
  | write (b : List Nat)
  | writeHeader (code : Int)

/-- Runs a sequence of tracked-writer calls. -/
def runRWOps (uw : UnderlyingWrite) : List RWOp → RespState → RespState
  | [], st => st
  | RWOp.write b :: rest, st => runRWOps uw rest (lrwWrite uw st b).2
  | RWOp.writeHeader code :: rest, st => runRWOps uw rest (lrwWriteHeader st code)

/-- The argument of the last `WriteHeader` among the calls, if any. -/
def lastStatus : List RWOp → Option Int
  | [] => none
  | RWOp.write _ :: rest => lastStatus rest
  | RWOp.writeHeader code :: rest => some ((lastStatus rest).getD code)

/-- The total of the counts the underlying writer reports for the writes. -/
def writeSum (uw : UnderlyingWrite) : List RWOp → Nat
  | [] => 0
  | RWOp.write b :: rest => (uw b).1 + writeSum uw rest
  | RWOp.writeHeader _ :: rest => writeSum uw rest

theorem runRWOps_statusCode (uw : UnderlyingWrite) (ops : List RWOp) :
    ∀ st : RespState,
      (runRWOps uw ops st).statusCode = (lastStatus ops).getD st.statusCode := by
  induction ops with
  | nil => intro st; rfl
  | cons op rest ih =>
    intro st
    cases op with
    | write b => exact ih _
    | writeHeader code =>
      show (runRWOps uw rest (lrwWriteHeader st code)).statusCode = _
      rw [ih (lrwWriteHeader st code)]
      cases h : lastStatus rest <;> simp [lastStatus, h, lrwWriteHeader]

theorem runRWOps_contentLength (uw : UnderlyingWrite) (ops : List RWOp) :
    ∀ st : RespState,
      (runRWOps uw ops st).contentLength = st.contentLength + writeSum uw ops := by
  induction ops with
  | nil => intro st; simp [runRWOps, writeSum]
  | cons op rest ih =>
    intro st
    cases op with
    | write b =>
      show (runRWOps uw rest (lrwWrite uw st b).2).contentLength = _
      rw [ih]
      simp [lrwWrite, writeSum]
      omega
    | writeHeader code =>
      show (runRWOps uw rest (lrwWriteHeader st code)).contentLength = _
      rw [ih]
      simp [lrwWriteHeader, writeSum]

/-- C8: the tracked writer forwards `Header`, `Write` and `WriteHeader` to
the underlying writer unchanged — `Write` returns exactly the underlying
count and error and adds the count to the bytes-written counter,
`WriteHeader` records and forwards the status — and over any call sequence
from the fresh state the tracked status is 0 until the first `WriteHeader`
and thereafter the argument of the most recent one, which is exactly what
`GetStatusCode` reports. -/
theorem loggingResponseWriter_tracking (uw : UnderlyingWrite) (ops : List RWOp)
    (st : RespState) (b : List Nat) (code : Int) :
    lrwHeader st = st.header ∧
    (lrwWrite uw st b).1 = uw b ∧
    (lrwWrite uw st b).2.bodyChunks = st.bodyChunks ++ [b] ∧
    (lrwWrite uw st b).2.contentLength = st.contentLength + (uw b).1 ∧
    (lrwWrite uw st b).2.statusCode = st.statusCode ∧
    (lrwWrite uw st b).2.header = st.header ∧
    (lrwWriteHeader st code).statusCode = code ∧
    (lrwWriteHeader st code).statusWrites = st.statusWrites ++ [code] ∧
    (lrwWriteHeader st code).header = st.header ∧
    (lrwWriteHeader st code).bodyChunks = st.bodyChunks ∧
    GetStatusCode (runRWOps uw ops initRespState) = (lastStatus ops).getD 0 ∧
    (lastStatus ops = none → GetStatusCode (runRWOps uw ops initRespState) = 0) ∧
    (runRWOps uw ops initRespState).contentLength = writeSum uw ops ∧
    GetStatusCode st = st.statusCode := by
  refine ⟨rfl, rfl, rfl, rfl, rfl, rfl, rfl, rfl, rfl, rfl, ?_, ?_, ?_, rfl⟩
  · exact runRWOps_statusCode uw ops initRespState
  · intro hnone
    rw [show GetStatusCode (runRWOps uw ops initRespState) =
      (runRWOps uw ops initRespState).statusCode from rfl,
      runRWOps_statusCode uw ops initRespState, hnone]
    rfl
  · rw [runRWOps_contentLength uw ops initRespState]
    simp [initRespState]

/-! ### HandlerGroups, their middleware slices and the routing table
(src/handlerGroup.go, src/server.go)

A `HandlerGroup` holds a path prefix and a slice of middleware.  The heap of
backing arrays is explicit so that mutation through one group is visibly a
write to that group's own array: `GetHandlerGroup` allocates a fresh array
(`make` + `copy`) for the child, and `AddMiddleware` grows the calling
group's own array in place (the adversarial reading of Go's `append`). -/

/-- A `HandlerGroup`: its accumulated base path and the index of its
middleware array in the heap. -/
structure HG where
  basePath : String
  mwArr : Nat
deriving Inhabited, Repr

/-- The registration-time world: the heap of middleware arrays, the groups
allocated so far, and the router's table of `(path, effective handler)`
entries. -/
structure World where
  heap : List (List Middleware)
  groups : List HG
  routes : List (String × Handler)

/-- The middleware list a group currently sees. -/
def groupMiddleware (w : World) (gid : Nat) : List Middleware :=
  match w.groups[gid]? with
  | some g => w.heap.getD g.mwArr []
  | none => []

/-- `Server.GetHandlerGroup`: a root group with the given base path and a
fresh empty middleware slice. -/
def serverGetHandlerGroup (w : World) (basePath : String) : World :=
  { w with heap := w.heap ++ [[]],
           groups := w.groups ++ [{ basePath := basePath, mwArr := w.heap.length }] }

/-- `HandlerGroup.GetHandlerGroup`: derives a child whose base path is the
parent's base path concatenated with `basePath` and whose middleware slice
is a fresh full copy (`make` + `copy`) of the parent's current slice. -/
def GetHandlerGroup (w : World) (pid : Nat) (basePath : String) : World :=
  match w.groups[pid]? with
  | none => w
  | some parent =>
    { w with
      heap := w.heap ++ [w.heap.getD parent.mwArr []],
      groups := w.groups ++
        [{ basePath := parent.basePath ++ basePath, mwArr := w.heap.length }] }

/-- `HandlerGroup.AddMiddleware`: appends to the calling group's own
middleware slice. -/
def AddMiddleware (w : World) (gid : Nat) (ms : List Middleware) : World :=
  match w.groups[gid]? with
  | none => w
  | some g =>
    { w with heap := w.heap.set g.mwArr ((w.heap.getD g.mwArr []) ++ ms) }

/-- `HandlerGroup.GET` (and its six siblings): prefixes the path with the
group's base path and installs the effective handler — composed from the
group's middleware list as it exists now — into the routing table. -/
def registerGET (w : World) (gid : Nat) (path : String) (userHandler : Handler) :
    World :=
  match w.groups[gid]? with
  | none => w
  | some g =>
    { w with routes := w.routes ++
        [(g.basePath ++ path,
          middlewareHandler (w.heap.getD g.mwArr []) userHandler)] }

theorem getElem?_eq_some_getD {α : Type} (l : List α) (i : Nat) (d : α)
    (h : i < l.length) : l[i]? = some (l.getD i d) := by
  rw [List.getD_eq_getElem?_getD, List.getElem?_eq_getElem h]
  rfl

theorem groupMiddleware_AddMiddleware_other (w : World) (g1 g2 : Nat)
    (G1 G2 : HG) (h1 : w.groups[g1]? = some G1) (h2 : w.groups[g2]? = some G2)
    (hne : G1.mwArr ≠ G2.mwArr) (ms : List Middleware) :
    groupMiddleware (AddMiddleware w g1 ms) g2 = groupMiddleware w g2 := by
  simp only [AddMiddleware, groupMiddleware, h1, h2]
  rw [List.getD_eq_getElem?_getD, List.getElem?_set_ne hne,
    List.getD_eq_getElem?_getD]

theorem groupMiddleware_AddMiddleware_self (w : World) (g : Nat) (G : HG)
    (hg : w.groups[g]? = some G) (hlt : G.mwArr < w.heap.length)
    (ms : List Middleware) :
    groupMiddleware (AddMiddleware w g ms) g = groupMiddleware w g ++ ms := by
  simp only [AddMiddleware, groupMiddleware, hg]
  rw [List.getD_eq_getElem?_getD, List.getElem?_set_self hlt]
  simp [List.getD_eq_getElem?_getD]

/-- C3: deriving a child group yields the parent's base path concatenated
with the sub-path and a full copy of the parent's middleware list as of
derivation; afterwards, adding middleware to the parent leaves the child's
list unchanged and vice versa — while the same additions do extend the list
of the group they were called on. -/
theorem GetHandlerGroup_copy_on_derive (w : World) (pid : Nat) (subPath : String)
    (hp : pid < w.groups.length)
    (harr : (w.groups.getD pid default).mwArr < w.heap.length) :
    ((GetHandlerGroup w pid subPath).groups.getD w.groups.length default).basePath =
      (w.groups.getD pid default).basePath ++ subPath ∧
    groupMiddleware (GetHandlerGroup w pid subPath) w.groups.length =
      groupMiddleware w pid ∧
    (∀ ms, groupMiddleware (AddMiddleware (GetHandlerGroup w pid subPath) pid ms)
      w.groups.length = groupMiddleware w pid) ∧
    (∀ ms, groupMiddleware (AddMiddleware (GetHandlerGroup w pid subPath)
      w.groups.length ms) pid = groupMiddleware w pid) ∧
    (∀ ms, groupMiddleware (AddMiddleware (GetHandlerGroup w pid subPath) pid ms)
      pid = groupMiddleware w pid ++ ms) ∧
    (∀ ms, groupMiddleware (AddMiddleware (GetHandlerGroup w pid subPath)
      w.groups.length ms) w.groups.length = groupMiddleware w pid ++ ms) := by
  have hpe : w.groups[pid]? = some (w.groups.getD pid default) := by
    rw [List.getD_eq_getElem?_getD, List.getElem?_eq_getElem hp]
    rfl
  have hw1 : GetHandlerGroup w pid subPath =
      { heap := w.heap ++ [w.heap.getD (w.groups.getD pid default).mwArr []],
        groups := w.groups ++
          [{ basePath := (w.groups.getD pid default).basePath ++ subPath,
             mwArr := w.heap.length }],
        routes := w.routes } := by
    unfold GetHandlerGroup
    rw [hpe]
  have hgm : groupMiddleware w pid =
      w.heap.getD (w.groups.getD pid default).mwArr [] := by
    simp only [groupMiddleware, hpe]
  have hchild : (GetHandlerGroup w pid subPath).groups[w.groups.length]? =
      some { basePath := (w.groups.getD pid default).basePath ++ subPath,
             mwArr := w.heap.length } := by
    rw [hw1]
    exact List.getElem?_concat_length _ _
  have hpar : (GetHandlerGroup w pid subPath).groups[pid]? =
      some (w.groups.getD pid default) := by
    rw [hw1]
    show (w.groups ++ _)[pid]? = _
    rw [List.getElem?_append_left hp]
    exact hpe
  have hheapP : (GetHandlerGroup w pid subPath).heap[(w.groups.getD pid
      default).mwArr]? = some (w.heap.getD (w.groups.getD pid default).mwArr []) := by
    rw [hw1]
    show (w.heap ++ _)[_]? = _
    rw [List.getElem?_append_left harr]
    exact getElem?_eq_some_getD _ _ _ harr
  have hheapC : (GetHandlerGroup w pid subPath).heap[w.heap.length]? =
      some (w.heap.getD (w.groups.getD pid default).mwArr []) := by
    rw [hw1]
    exact List.getElem?_concat_length _ _
  have hmwne : (w.groups.getD pid default).mwArr ≠ w.heap.length :=
    Nat.ne_of_lt harr
  have hlenP : (w.groups.getD pid default).mwArr <
      (GetHandlerGroup w pid subPath).heap.length := by
    rw [hw1]
    simp only [List.length_append, List.length_cons, List.length_nil]
    omega
  have hlenC : w.heap.length < (GetHandlerGroup w pid subPath).heap.length := by
    rw [hw1]
    simp only [List.length_append, List.length_cons, List.length_nil]
    omega
  have hgm1 : groupMiddleware (GetHandlerGroup w pid subPath) w.groups.length =
      groupMiddleware w pid := by
    simp only [groupMiddleware, hchild, hpe]
    rw [List.getD_eq_getElem?_getD, hheapC, List.getD_eq_getElem?_getD]
    rfl
  have hgm1p : groupMiddleware (GetHandlerGroup w pid subPath) pid =
      groupMiddleware w pid := by
    simp only [groupMiddleware, hpar, hpe]
    rw [List.getD_eq_getElem?_getD, hheapP, List.getD_eq_getElem?_getD]
    rfl
  refine ⟨?_, hgm1, ?_, ?_, ?_, ?_⟩
  · rw [List.getD_eq_getElem?_getD, hchild]
    rfl
  · intro ms
    rw [groupMiddleware_AddMiddleware_other (GetHandlerGroup w pid subPath) pid
      w.groups.length _ _ hpar hchild hmwne ms]
    exact hgm1
  · intro ms
    rw [groupMiddleware_AddMiddleware_other (GetHandlerGroup w pid subPath)
      w.groups.length pid _ _ hchild hpar (Ne.symm hmwne) ms]
    exact hgm1p
  · intro ms
    rw [groupMiddleware_AddMiddleware_self (GetHandlerGroup w pid subPath) pid _
      hpar hlenP ms]
    rw [hgm1p]
  · intro ms
    rw [groupMiddleware_AddMiddleware_self (GetHandlerGroup w pid subPath)
      w.groups.length _ hchild ?hlt ms]
    · rw [hgm1]
    · exact hlenC

/-- A concrete registration-time world: a server-rooted group at `/api`
with an empty middleware list. -/
def exampleWorld : World :=
  serverGetHandlerGroup { heap := [], groups := [], routes := [] } "/api"

/-- Closed instance of the C3 contract on `exampleWorld`: the child derived
at `/v1` gets the concatenated base path, and adding a middleware to the
parent afterwards leaves the child's (copied) list unchanged. -/
theorem GetHandlerGroup_copy_on_derive_witness :
    ((GetHandlerGroup exampleWorld 0 "/v1").groups.getD
        exampleWorld.groups.length default).basePath =
      (exampleWorld.groups.getD 0 default).basePath ++ "/v1" ∧
    groupMiddleware (AddMiddleware (GetHandlerGroup exampleWorld 0 "/v1") 0
        [fun k => k]) exampleWorld.groups.length = groupMiddleware exampleWorld 0 := by
  have h := GetHandlerGroup_copy_on_derive exampleWorld 0 "/v1" (by decide) (by decide)
  exact ⟨h.1, h.2.2.1 [fun k => k]⟩

/-- C6: registering a route composes the effective handler from the group's
middleware list as it exists at that moment and stores it in the routing
table; `AddMiddleware` never touches the routing table, so middleware
appended afterwards extends the group's list without changing the stored
route. -/
theorem registered_route_snapshot (w : World) (gid : Nat) (path : String)
    (L : Handler) (hg : gid < w.groups.length)
    (harr : (w.groups.getD gid default).mwArr < w.heap.length) :
    (registerGET w gid path L).routes = w.routes ++
      [((w.groups.getD gid default).basePath ++ path,
        middlewareHandler (groupMiddleware w gid) L)] ∧
    (∀ ms, (AddMiddleware (registerGET w gid path L) gid ms).routes =
      (registerGET w gid path L).routes) ∧
    (∀ ms, groupMiddleware (AddMiddleware (registerGET w gid path L) gid ms) gid =
      groupMiddleware w gid ++ ms) := by
  have hpe : w.groups[gid]? = some (w.groups.getD gid default) := by
    rw [List.getD_eq_getElem?_getD, List.getElem?_eq_getElem hg]
    rfl
  have hgm : groupMiddleware w gid =
      w.heap.getD (w.groups.getD gid default).mwArr [] := by
    unfold groupMiddleware
    rw [hpe]
  have hw1 : registerGET w gid path L =
      { heap := w.heap, groups := w.groups,
        routes := w.routes ++
          [((w.groups.getD gid default).basePath ++ path,
            middlewareHandler (w.heap.getD (w.groups.getD gid default).mwArr [])
              L)] } := by
    unfold registerGET
    rw [hpe]
  have hpe1 : (registerGET w gid path L).groups[gid]? =
      some (w.groups.getD gid default) := by
    rw [hw1]
    exact hpe
  have hgm1 : groupMiddleware (registerGET w gid path L) gid =
      groupMiddleware w gid := by
    unfold groupMiddleware
    rw [hpe1, hpe, hw1]
  refine ⟨?_, ?_, ?_⟩
  · rw [hw1, hgm]
  · intro ms
    simp only [AddMiddleware]
    rw [hpe1]
  · intro ms
    rw [groupMiddleware_AddMiddleware_self (registerGET w gid path L) gid _ hpe1
      ?hlt ms]
    · rw [hgm1]
    · rw [hw1]
      exact harr

/-- Closed instance of the C6 contract on `exampleWorld`: after a `GET`
registration, adding a middleware leaves the routing table unchanged while
the group's own list grows. -/
theorem registered_route_snapshot_witness :
    (AddMiddleware (registerGET exampleWorld 0 "/items" (fun c => (c, none))) 0
        [fun k => k]).routes =
      (registerGET exampleWorld 0 "/items" (fun c => (c, none))).routes ∧
    groupMiddleware (AddMiddleware (registerGET exampleWorld 0 "/items"
        (fun c => (c, none))) 0 [fun k => k]) 0 =
      groupMiddleware exampleWorld 0 ++ [fun k => k] := by
  have h := registered_route_snapshot exampleWorld 0 "/items" (fun c => (c, none))
    (by decide) (by decide)
  exact ⟨h.2.1 [fun k => k], h.2.2 [fun k => k]⟩

end Lightwork
